import Mathlib

/-!
Shallow embedding of the Battleships repository (server.py, client.py,
battleship.py, ship_placement.py) and proofs about its specification claims.

Bytes are modelled as `Nat` (the source works on Python `bytes`, whose
elements are 0–255); payload text is modelled at the byte/character level.
Python list indexing (including negative indices) is modelled explicitly,
and code that can raise is embedded in `Except`.
-/

namespace BattleshipsGame

/-! ## Framing codec (server.build_packet / client.parse_packet) -/

/-- One step of the zlib CRC-32 bit loop (reflected polynomial 0xEDB88320). -/
def crcBitStep (c : Nat) : Nat :=
  if c % 2 = 1 then (c / 2) ^^^ 0xEDB88320 else c / 2

/-- Absorb one byte into the running CRC-32 state. -/
def crcByteStep (c b : Nat) : Nat := crcBitStep^[8] (c ^^^ b)

/-- zlib.crc32 over a byte sequence. -/
def crc32 (data : List Nat) : Nat :=
  (data.foldl crcByteStep 0xFFFFFFFF) ^^^ 0xFFFFFFFF

/-- `crc & 0xFFFFFFFF` as the source applies after calling zlib.crc32. -/
def crc32m (data : List Nat) : Nat := crc32 data % 2 ^ 32

/-- Python `n.to_bytes(4, 'big')` for `n < 2^32`. -/
def toBytesBE4 (n : Nat) : List Nat :=
  [n / 2 ^ 24 % 256, n / 2 ^ 16 % 256, n / 2 ^ 8 % 256, n % 256]

/-- Python `int.from_bytes(bs, 'big')`. -/
def fromBytesBE (bs : List Nat) : Nat := bs.foldl (fun a b => a * 256 + b) 0

/-- The frame bytes produced by a successful `build_packet`
(`[seq,type,len] ++ payload ++ crc32 big-endian`). -/
def encodeFrame (seq pktType : Nat) (payload : List Nat) : List Nat :=
  let header := [seq % 256, pktType % 256, payload.length % 256] ++ payload
  header ++ toBytesBE4 (crc32m header)

/-- server.py / client.py `build_packet`: rejects payloads over 255 bytes,
otherwise emits header, payload and big-endian CRC-32. -/
def build_packet (seq pktType : Nat) (payload : List Nat) :
    Except String (List Nat) :=
  if payload.length > 255 then .error "Payload too long for packet format"
  else .ok (encodeFrame seq pktType payload)

/-- client.py `parse_packet` on a complete buffer: header fields, declared
length, CRC check; any failure yields `none` (the client drops the frame). -/
def parse_packet (data : List Nat) : Option (Nat × Nat × List Nat) :=
  if data.length < 7 then none
  else
    match data with
    | s :: t :: l :: rest =>
      let payload := rest.take l
      if payload.length < l then none
      else
        let crcBytes := (rest.drop l).take 4
        let pkt := s :: t :: l :: payload
        let received := fromBytesBE crcBytes
        if received = crc32m pkt then some (s, t, payload) else none
    | _ => none

theorem crcBitStep_lt (c : Nat) (h : c < 2 ^ 32) : crcBitStep c < 2 ^ 32 := by
  unfold crcBitStep
  split
  · exact Nat.xor_lt_two_pow (by omega) (by norm_num)
  · omega

theorem fromBytes_toBytes (n : Nat) (h : n < 2 ^ 32) :
    fromBytesBE (toBytesBE4 n) = n := by
  simp only [toBytesBE4, fromBytesBE, List.foldl]
  omega

theorem take_append_self (l₁ l₂ : List Nat) : (l₁ ++ l₂).take l₁.length = l₁ := by
  simp

theorem drop_append_self (l₁ l₂ : List Nat) : (l₁ ++ l₂).drop l₁.length = l₂ := by
  simp

theorem crc32m_lt (d : List Nat) : crc32m d < 2 ^ 32 :=
  Nat.mod_lt _ (by norm_num)

theorem encodeFrame_eq (seq t : Nat) (p : List Nat)
    (hs : seq < 256) (ht : t < 256) (hp : p.length ≤ 255) :
    encodeFrame seq t p =
      seq :: t :: p.length :: (p ++ toBytesBE4 (crc32m (seq :: t :: p.length :: p))) := by
  have hs' : seq % 256 = seq := Nat.mod_eq_of_lt hs
  have ht' : t % 256 = t := Nat.mod_eq_of_lt ht
  have hl' : p.length % 256 = p.length := Nat.mod_eq_of_lt (by omega)
  unfold encodeFrame
  simp [hs', ht', hl']

theorem parse_encode (seq t : Nat) (p : List Nat)
    (hs : seq < 256) (ht : t < 256) (hp : p.length ≤ 255) :
    parse_packet (encodeFrame seq t p) = some (seq, t, p) := by
  rw [encodeFrame_eq seq t p hs ht hp]
  unfold parse_packet
  rw [if_neg (by simp [toBytesBE4])]
  simp only [take_append_self, drop_append_self]
  rw [if_neg (by omega)]
  have h4 : (toBytesBE4 (crc32m (seq :: t :: p.length :: p))).take 4 =
      toBytesBE4 (crc32m (seq :: t :: p.length :: p)) := by
    simp [toBytesBE4]
  rw [h4, fromBytes_toBytes _ (crc32m_lt _), if_pos rfl]

/-- C2: for every seq and type byte and every payload of at most 255 bytes,
`parse_packet` inverts `build_packet`; `build_packet` fails exactly when the
payload exceeds 255 bytes; and the successful frame is
`[seq][type][len][payload]` followed by the big-endian CRC-32 of the
preceding bytes. -/
theorem c2_codec_roundtrip (seq pktType : Nat) (p : List Nat)
    (hs : seq < 256) (ht : pktType < 256) :
    (p.length ≤ 255 →
      build_packet seq pktType p = .ok (encodeFrame seq pktType p) ∧
      parse_packet (encodeFrame seq pktType p) = some (seq, pktType, p)) ∧
    (255 < p.length →
      build_packet seq pktType p = .error "Payload too long for packet format") ∧
    (p.length ≤ 255 →
      encodeFrame seq pktType p =
        [seq, pktType, p.length] ++ p ++
          toBytesBE4 (crc32m ([seq, pktType, p.length] ++ p))) := by
  refine ⟨fun hp => ⟨?_, parse_encode seq pktType p hs ht hp⟩, fun hp => ?_, fun hp => ?_⟩
  · unfold build_packet
    rw [if_neg (by omega)]
  · unfold build_packet
    rw [if_pos (by omega)]
  · rw [encodeFrame_eq seq pktType p hs ht hp]
    simp

/-- Witness for C2 at seq 1, type 2, payload `[65]`. -/
theorem c2_codec_roundtrip_witness :
    (1 < 256 ∧ 2 < 256) ∧
    (([65] : List Nat).length ≤ 255 →
      build_packet 1 2 [65] = .ok (encodeFrame 1 2 [65]) ∧
      parse_packet (encodeFrame 1 2 [65]) = some (1, 2, [65])) ∧
    (255 < ([65] : List Nat).length →
      build_packet 1 2 [65] = .error "Payload too long for packet format") ∧
    (([65] : List Nat).length ≤ 255 →
      encodeFrame 1 2 [65] =
        [1, 2, ([65] : List Nat).length] ++ [65] ++
          toBytesBE4 (crc32m ([1, 2, ([65] : List Nat).length] ++ [65]))) :=
  ⟨⟨by decide, by decide⟩, c2_codec_roundtrip 1 2 [65] (by decide) (by decide)⟩

/-! ## Chunked board transfer (server.send_board_in_chunks /
client.receive_messages SHOW handling) -/

/-- The 5-character marker prefixed to every chunk but the last. -/
def moreMarker : List Char := ['M', 'O', 'R', 'E', '\n']

/-- The 5-character marker prefixed to the final chunk. -/
def lastMarker : List Char := ['L', 'A', 'S', 'T', '\n']

/-- `[board_str[i:i+250] for i in range(0, len(board_str), 250)]`:
split a string into successive pieces of at most 250 characters. -/
def chunkList : List Char → List (List Char)
  | [] => []
  | a :: l => ((a :: l).take 250) :: chunkList ((a :: l).drop 250)
  termination_by l => l.length
  decreasing_by simp [List.length_drop]; omega

/-- Attach `MORE\n` to every chunk but the last and `LAST\n` to the last,
as the loop in `send_board_in_chunks` does. -/
def tagChunks : List (List Char) → List (List Char)
  | [] => []
  | [c] => [lastMarker ++ c]
  | c :: c₂ :: rest => (moreMarker ++ c) :: tagChunks (c₂ :: rest)

/-- server.py `send_board_in_chunks`: the SHOW payloads, in send order,
emitted for a board string (each is wrapped in a SHOW frame by
`build_packet`). -/
def send_board_in_chunks (s : List Char) : List (List Char) :=
  tagChunks (chunkList s)

/-- The client receiver's board-reassembly state
(`board_buffer`, `awaiting_board`). -/
structure RecvState where
  buffer : List Char
  awaiting : Bool
deriving DecidableEq

/-- Fresh receiver state: empty buffer, not awaiting a multi-part board. -/
def recvInit : RecvState := ⟨[], false⟩

/-- client.py `receive_messages`, SHOW dispatch: accumulate `MORE\n` chunk
bodies, deliver the accumulated board on `LAST\n`, and treat anything else
as a legacy single-packet board. Returns the new state and the board
delivered (printed), if any. -/
def showStep (st : RecvState) (payload : List Char) : RecvState × Option (List Char) :=
  if payload.take 5 = moreMarker then
    let st0 := if st.awaiting then st else ⟨[], true⟩
    (⟨st0.buffer ++ payload.drop 5, true⟩, none)
  else if payload.take 5 = lastMarker then
    let base := if st.awaiting then st.buffer else []
    (⟨[], false⟩, some (base ++ payload.drop 5))
  else
    (⟨[], false⟩, some payload)

/-- Feed a sequence of SHOW payloads through the receiver, collecting every
delivered board. -/
def runRecv (st : RecvState) : List (List Char) → RecvState × List (List Char)
  | [] => (st, [])
  | p :: rest =>
    let (st', out) := showStep st p
    let (stf, outs) := runRecv st' rest
    (stf, out.toList ++ outs)

theorem take_marker (m c : List Char) (hm : m.length = 5) :
    (m ++ c).take 5 = m := by
  rw [← hm]
  simp

theorem drop_marker (m c : List Char) (hm : m.length = 5) :
    (m ++ c).drop 5 = c := by
  rw [← hm]
  simp

theorem chunkList_join (s : List Char) : (chunkList s).join = s := by
  induction s using chunkList.induct with
  | case1 => simp [chunkList]
  | case2 a l ih =>
    rw [chunkList]
    simp only [List.join_cons, ih, List.take_append_drop]

theorem chunkList_mem (s : List Char) (c : List Char) (hc : c ∈ chunkList s) :
    c.length ≤ 250 ∧ c ≠ [] := by
  induction s using chunkList.induct with
  | case1 => simp [chunkList] at hc
  | case2 a l ih =>
    rw [chunkList] at hc
    rcases List.mem_cons.mp hc with h | h
    · subst h
      exact ⟨by simp, by simp⟩
    · exact ih h

theorem chunkList_ne_nil (s : List Char) (hs : s ≠ []) : chunkList s ≠ [] := by
  cases s with
  | nil => exact absurd rfl hs
  | cons a l => rw [chunkList]; simp

theorem tagChunks_ne_nil (cs : List (List Char)) (h : cs ≠ []) :
    tagChunks cs ≠ [] := by
  match cs with
  | [] => exact absurd rfl h
  | [c] => rw [tagChunks]; simp
  | c :: c₂ :: rest => rw [tagChunks]; simp

theorem tagChunks_dropLast (cs : List (List Char)) :
    (tagChunks cs).dropLast = cs.dropLast.map (fun c => moreMarker ++ c) := by
  match cs with
  | [] => simp [tagChunks]
  | [c] => simp [tagChunks]
  | c :: c₂ :: rest =>
    rw [tagChunks]
    rw [List.dropLast_cons_of_ne_nil (tagChunks_ne_nil (c₂ :: rest) (by simp))]
    rw [List.dropLast_cons_of_ne_nil (by simp)]
    simp only [List.map_cons, List.cons.injEq, true_and]
    exact tagChunks_dropLast (c₂ :: rest)

theorem tagChunks_getLast? (cs : List (List Char)) :
    (tagChunks cs).getLast? = cs.getLast?.map (fun c => lastMarker ++ c) := by
  match cs with
  | [] => simp [tagChunks]
  | [c] => simp [tagChunks]
  | c :: c₂ :: rest =>
    have ih := tagChunks_getLast? (c₂ :: rest)
    rw [tagChunks]
    cases htc : tagChunks (c₂ :: rest) with
    | nil => exact absurd htc (tagChunks_ne_nil _ (by simp))
    | cons q qs =>
      rw [htc] at ih
      rw [List.getLast?_cons_cons, ih, List.getLast?_cons_cons]

theorem tagChunks_bodies (cs : List (List Char)) :
    (tagChunks cs).map (fun p => p.drop 5) = cs := by
  match cs with
  | [] => simp [tagChunks]
  | [c] => simp [tagChunks, drop_marker lastMarker c rfl]
  | c :: c₂ :: rest =>
    rw [tagChunks]
    simp only [List.map_cons, drop_marker moreMarker c rfl, List.cons.injEq, true_and]
    exact tagChunks_bodies (c₂ :: rest)

theorem runRecv_tagChunks (cs : List (List Char)) (h : cs ≠ [])
    (buf : List Char) :
    runRecv ⟨buf, true⟩ (tagChunks cs) = (recvInit, [buf ++ cs.join]) := by
  match cs with
  | [] => exact absurd rfl h
  | [c] =>
    have hne : lastMarker ≠ moreMarker := by decide
    rw [tagChunks]
    simp [runRecv, showStep, take_marker lastMarker c rfl,
      drop_marker lastMarker c rfl, hne, recvInit]
  | c :: c₂ :: rest =>
    have step : showStep ⟨buf, true⟩ (moreMarker ++ c) = (⟨buf ++ c, true⟩, none) := by
      simp [showStep, take_marker moreMarker c rfl, drop_marker moreMarker c rfl]
    rw [tagChunks]
    simp only [runRecv, step]
    rw [runRecv_tagChunks (c₂ :: rest) (by simp) (buf ++ c)]
    simp

theorem runRecv_all_more (cs : List (List Char)) (st : RecvState) :
    (runRecv st (cs.map (fun c => moreMarker ++ c))).2 = [] := by
  induction cs generalizing st with
  | nil => simp [runRecv]
  | cons c rest ih =>
    have step : showStep st (moreMarker ++ c) =
        (⟨(if st.awaiting then st else ⟨[], true⟩).buffer ++ c, true⟩, none) := by
      simp [showStep, take_marker moreMarker c rfl, drop_marker moreMarker c rfl]
    simp only [List.map_cons, runRecv, step]
    simp [ih]

theorem runRecv_send (s : List Char) (h : 255 < s.length) :
    runRecv recvInit (send_board_in_chunks s) = (recvInit, [s]) := by
  obtain ⟨a, l, rfl⟩ : ∃ a l, s = a :: l := by
    cases s with
    | nil => simp at h
    | cons a l => exact ⟨a, l, rfl⟩
  rw [send_board_in_chunks, chunkList]
  have hdrop : (a :: l).drop 250 ≠ [] := by
    have hl : 0 < ((a :: l).drop 250).length := by
      simp only [List.length_drop, List.length_cons]
      simp only [List.length_cons] at h
      omega
    exact List.length_pos.mp hl
  cases hck : chunkList ((a :: l).drop 250) with
  | nil => exact absurd hck (chunkList_ne_nil _ hdrop)
  | cons c₂ rest =>
    rw [tagChunks]
    have step : showStep recvInit (moreMarker ++ (a :: l).take 250) =
        (⟨(a :: l).take 250, true⟩, none) := by
      simp [showStep, recvInit, take_marker moreMarker _ rfl,
        drop_marker moreMarker _ rfl]
    simp only [runRecv, step]
    rw [runRecv_tagChunks (c₂ :: rest) (by simp) _]
    have hj : (a :: l).take 250 ++ (c₂ :: rest).join = a :: l := by
      have hcj := chunkList_join (a :: l)
      rw [chunkList, hck] at hcj
      simpa using hcj
    rw [hj]
    simp

/-- C9: a board string longer than 255 characters is split into chunk
bodies of at most 250 characters; every chunk but the last is prefixed
`MORE\n` and the last is prefixed `LAST\n`; the concatenation of the chunk
bodies is the original string; and feeding the chunks through the client
receiver delivers exactly the original string, with nothing delivered
before the `LAST\n` chunk. -/
theorem c9_chunked_transfer (s : List Char) (h : 255 < s.length) :
    (∀ p ∈ send_board_in_chunks s, (p.drop 5).length ≤ 250) ∧
    (send_board_in_chunks s).dropLast =
      (chunkList s).dropLast.map (fun c => moreMarker ++ c) ∧
    (send_board_in_chunks s).getLast? =
      ((chunkList s).getLast?).map (fun c => lastMarker ++ c) ∧
    ((send_board_in_chunks s).map (fun p => p.drop 5)).join = s ∧
    runRecv recvInit (send_board_in_chunks s) = (recvInit, [s]) ∧
    (runRecv recvInit ((send_board_in_chunks s).dropLast)).2 = [] := by
  refine ⟨?_, tagChunks_dropLast _, tagChunks_getLast? _, ?_, runRecv_send s h, ?_⟩
  · intro p hp
    have hmem : p.drop 5 ∈ (send_board_in_chunks s).map (fun p => p.drop 5) :=
      List.mem_map_of_mem _ hp
    rw [send_board_in_chunks, tagChunks_bodies] at hmem
    exact (chunkList_mem s _ hmem).1
  · rw [send_board_in_chunks, tagChunks_bodies, chunkList_join]
  · rw [send_board_in_chunks, tagChunks_dropLast, runRecv_all_more]

/-- Witness for C9 at a 256-character board string. -/
theorem c9_chunked_transfer_witness :
    255 < (List.replicate 256 'x').length ∧
    ((∀ p ∈ send_board_in_chunks (List.replicate 256 'x'), (p.drop 5).length ≤ 250) ∧
    (send_board_in_chunks (List.replicate 256 'x')).dropLast =
      (chunkList (List.replicate 256 'x')).dropLast.map (fun c => moreMarker ++ c) ∧
    (send_board_in_chunks (List.replicate 256 'x')).getLast? =
      ((chunkList (List.replicate 256 'x')).getLast?).map (fun c => lastMarker ++ c) ∧
    ((send_board_in_chunks (List.replicate 256 'x')).map (fun p => p.drop 5)).join =
      List.replicate 256 'x' ∧
    runRecv recvInit (send_board_in_chunks (List.replicate 256 'x')) =
      (recvInit, [List.replicate 256 'x']) ∧
    (runRecv recvInit ((send_board_in_chunks (List.replicate 256 'x')).dropLast)).2 = []) :=
  ⟨by rw [List.length_replicate]; omega,
   c9_chunked_transfer (List.replicate 256 'x') (by rw [List.length_replicate]; omega)⟩

/-! ## Board model (battleship.py) -/

/-- A grid cell: `'.'`, `'S'`, `'X'`, `'o'` in the source. -/
inductive Cell
  | empty
  | ship
  | hit
  | miss
deriving DecidableEq, Repr

/-- Python index normalization for a list of length `n`: a negative index
counts from the end. -/
def pyIdx (n : Nat) (i : Int) : Int :=
  if i < 0 then i + n else i

/-- Python list read `l[i]`, with negative-index wraparound;
`none` models an IndexError. -/
def pyGet {α : Type} (l : List α) (i : Int) : Option α :=
  if 0 ≤ pyIdx l.length i then l[(pyIdx l.length i).toNat]? else none

/-- Python list write `l[i] = a`, with negative-index wraparound;
`none` models an IndexError. -/
def pySet {α : Type} (l : List α) (i : Int) (a : α) : Option (List α) :=
  if 0 ≤ pyIdx l.length i ∧ pyIdx l.length i < l.length then
    some (l.set (pyIdx l.length i).toNat a)
  else none

/-- `grid[r][c]`. -/
def getCell (g : List (List Cell)) (r c : Int) : Except Unit Cell :=
  match pyGet g r with
  | none => .error ()
  | some row =>
    match pyGet row c with
    | none => .error ()
    | some cell => .ok cell

/-- `grid[r][c] = a` (the row is mutated in place; functionally, the row is
replaced by its updated copy). -/
def setCell (g : List (List Cell)) (r c : Int) (a : Cell) :
    Except Unit (List (List Cell)) :=
  match pyGet g r with
  | none => .error ()
  | some row =>
    match pySet row c a with
    | none => .error ()
    | some row' =>
      match pySet g r row' with
      | none => .error ()
      | some g' => .ok g'

/-- One entry of `Board.placed_ships`: `{'name': str, 'positions': set}`. -/
structure ShipEntry where
  name : String
  positions : Finset (Int × Int)
deriving DecidableEq

/-- battleship.py `Board`: hidden grid, display grid, placed ships. -/
structure Board where
  size : Nat
  hidden : List (List Cell)
  display : List (List Cell)
  placed_ships : List ShipEntry
deriving DecidableEq

/-- An `n`×`n` grid of empty cells. -/
def emptyGrid (n : Nat) : List (List Cell) :=
  List.replicate n (List.replicate n Cell.empty)

/-- `Board.__init__(size)`. -/
def Board.new (size : Nat) : Board :=
  ⟨size, emptyGrid size, emptyGrid size, []⟩

/-- The cells a ship of length `sz` would occupy starting at `(row, col)`
(`orientation` 0 = horizontal, anything else = vertical, as in the source's
`if orientation == 0`). -/
def runCells (row col : Int) (sz : Nat) (orientation : Nat) : List (Int × Int) :=
  if orientation = 0 then (List.range sz).map (fun (k : Nat) => (row, col + (k : Int)))
  else (List.range sz).map (fun (k : Nat) => (row + (k : Int), col))

/-- The occupancy loop of `can_place_ship`: `ok false` on the first
non-empty cell, an error on an out-of-range read. -/
def checkCells (g : List (List Cell)) : List (Int × Int) → Except Unit Bool
  | [] => .ok true
  | (r, c) :: rest =>
    match getCell g r c with
    | .error e => .error e
    | .ok cell => if cell ≠ Cell.empty then .ok false else checkCells g rest

/-- battleship.py `Board.can_place_ship`. -/
def Board.can_place_ship (b : Board) (row col : Int) (sz orientation : Nat) :
    Except Unit Bool :=
  if orientation = 0 then
    if (col + sz : Int) > b.size then .ok false
    else checkCells b.hidden (runCells row col sz orientation)
  else
    if (row + sz : Int) > b.size then .ok false
    else checkCells b.hidden (runCells row col sz orientation)

/-- The write loop of `do_place_ship`. -/
def placeCells (g : List (List Cell)) : List (Int × Int) → Except Unit (List (List Cell))
  | [] => .ok g
  | (r, c) :: rest =>
    match setCell g r c Cell.ship with
    | .error e => .error e
    | .ok g' => placeCells g' rest

/-- battleship.py `Board.do_place_ship`: marks the run's cells `'S'` and
returns the set of occupied positions. -/
def Board.do_place_ship (b : Board) (row col : Int) (sz orientation : Nat) :
    Except Unit (Finset (Int × Int) × Board) :=
  match placeCells b.hidden (runCells row col sz orientation) with
  | .error e => .error e
  | .ok g' => .ok ((runCells row col sz orientation).toFinset, { b with hidden := g' })

/-- The caller pattern around placement (`if can_place_ship … :
do_place_ship …`, as in `place_ships_randomly` / `ShipPlacement.place_ship`):
returns the occupied set when the check passed, the untouched board
otherwise. -/
def placeIfPossible (b : Board) (row col : Int) (sz orientation : Nat) :
    Except Unit (Option (Finset (Int × Int)) × Board) :=
  match b.can_place_ship row col sz orientation with
  | .error e => .error e
  | .ok false => .ok (none, b)
  | .ok true =>
    match b.do_place_ship row col sz orientation with
    | .error e => .error e
    | .ok (occ, b') => .ok (some occ, b')

/-- The result of `Board.fire_at`: `'hit'`, `'miss'`, `'already_shot'`. -/
inductive FireResult
  | hit
  | miss
  | already_shot
deriving DecidableEq, Repr

/-- battleship.py `Board._mark_hit_and_check_sunk`: removes the position
from the first ship containing it and returns its name if that empties the
ship. -/
def mark_hit_and_check_sunk : List ShipEntry → (Int × Int) → Option String × List ShipEntry
  | [], _ => (none, [])
  | s :: rest, p =>
    if p ∈ s.positions then
      let s' : ShipEntry := ⟨s.name, s.positions.erase p⟩
      ((if s'.positions = ∅ then some s.name else none), s' :: rest)
    else
      let (r, rest') := mark_hit_and_check_sunk rest p
      (r, s :: rest')

/-- battleship.py `Board.fire_at`. -/
def Board.fire_at (b : Board) (row col : Int) :
    Except Unit (FireResult × Option String × Board) :=
  match getCell b.hidden row col with
  | .error e => .error e
  | .ok Cell.ship =>
    match setCell b.hidden row col Cell.hit with
    | .error e => .error e
    | .ok h' =>
      match setCell b.display row col Cell.hit with
      | .error e => .error e
      | .ok d' =>
        let (sunk, ships') := mark_hit_and_check_sunk b.placed_ships (row, col)
        .ok (FireResult.hit, sunk,
          { b with hidden := h', display := d', placed_ships := ships' })
  | .ok Cell.empty =>
    match setCell b.hidden row col Cell.miss with
    | .error e => .error e
    | .ok h' =>
      match setCell b.display row col Cell.miss with
      | .error e => .error e
      | .ok d' => .ok (FireResult.miss, none, { b with hidden := h', display := d' })
  | .ok _ => .ok (FireResult.already_shot, none, b)

/-- battleship.py `Board.all_ships_sunk`. -/
def Board.all_ships_sunk (b : Board) : Bool :=
  b.placed_ships.all (fun s => s.positions = ∅)

/-- Membership of a coordinate in the `n`×`n` grid proper (no negative
wraparound). -/
def inGrid (n : Nat) (p : Int × Int) : Prop :=
  0 ≤ p.1 ∧ p.1 < n ∧ 0 ≤ p.2 ∧ p.2 < n

instance (n : Nat) (p : Int × Int) : Decidable (inGrid n p) := by
  unfold inGrid; infer_instance

instance {ε α : Type} [DecidableEq ε] [DecidableEq α] : DecidableEq (Except ε α)
  | .ok x, .ok y =>
    if h : x = y then .isTrue (by rw [h])
    else .isFalse (by intro hc; injection hc; contradiction)
  | .ok _, .error _ => .isFalse (by intro hc; exact Except.noConfusion hc)
  | .error _, .ok _ => .isFalse (by intro hc; exact Except.noConfusion hc)
  | .error x, .error y =>
    if h : x = y then .isTrue (by rw [h])
    else .isFalse (by intro hc; injection hc; contradiction)

/-- Well-formedness of a 10×10 board as built by `Board.__init__(10)`. -/
def boardWF (b : Board) : Prop :=
  b.size = 10 ∧ b.hidden.length = 10 ∧ (∀ row ∈ b.hidden, row.length = 10)

instance (b : Board) : Decidable (boardWF b) := by
  unfold boardWF; infer_instance

/-- Well-formedness of a 10×10 grid. -/
def gridWF (g : List (List Cell)) : Prop :=
  g.length = 10 ∧ ∀ row ∈ g, row.length = 10

theorem pyIdx_nn (n : Nat) (i : Int) (h0 : 0 ≤ i) : pyIdx n i = i :=
  if_neg (by omega)

theorem pyGet_nn {α : Type} (l : List α) (i : Int) (h0 : 0 ≤ i) :
    pyGet l i = l[i.toNat]? := by
  unfold pyGet
  rw [pyIdx_nn _ _ h0, if_pos h0]

theorem pyGet_some_bound {α : Type} (l : List α) (i : Int) (x : α)
    (h0 : 0 ≤ i) (h : pyGet l i = some x) : i < l.length := by
  rw [pyGet_nn l i h0] at h
  by_contra hcon
  rw [List.getElem?_eq_none (by omega)] at h
  exact Option.noConfusion h

theorem pySet_some {α : Type} (l l' : List α) (i : Int) (a : α)
    (h : pySet l i a = some l') :
    l' = l.set (pyIdx l.length i).toNat a ∧
      0 ≤ pyIdx l.length i ∧ pyIdx l.length i < l.length := by
  unfold pySet at h
  split at h
  · next hc => cases h; exact ⟨rfl, hc⟩
  · exact Option.noConfusion h

theorem pySet_nn {α : Type} (l : List α) (i : Int) (a : α) (h0 : 0 ≤ i)
    (h1 : i < l.length) :
    pySet l i a = some (l.set i.toNat a) := by
  unfold pySet
  rw [pyIdx_nn _ _ h0, if_pos ⟨h0, h1⟩]

theorem pySet_length {α : Type} (l l' : List α) (i : Int) (a : α)
    (h : pySet l i a = some l') : l'.length = l.length := by
  obtain ⟨rfl, -, -⟩ := pySet_some l l' i a h
  exact List.length_set ..

theorem pySet_pyGet_self {α : Type} (l l' : List α) (i : Int) (a : α)
    (h : pySet l i a = some l') : pyGet l' i = some a := by
  obtain ⟨rfl, h0, h1⟩ := pySet_some l l' i a h
  unfold pyGet
  rw [List.length_set]
  rw [if_pos h0]
  rw [List.getElem?_set_self']
  have hlt : (pyIdx l.length i).toNat < l.length := by omega
  simp [List.getElem?_eq_getElem hlt]

theorem pySet_pyGet_other {α : Type} (l l' : List α) (i i' : Int) (a : α)
    (hne : pyIdx l.length i' ≠ pyIdx l.length i)
    (h : pySet l i a = some l') : pyGet l' i' = pyGet l i' := by
  obtain ⟨rfl, h0, h1⟩ := pySet_some l l' i a h
  unfold pyGet
  rw [List.length_set]
  by_cases h0' : 0 ≤ pyIdx l.length i'
  · rw [if_pos h0', if_pos h0']
    exact List.getElem?_set_ne (by omega)
  · rw [if_neg h0', if_neg h0']

theorem getCell_of (g : List (List Cell)) (r c : Int) (row : List Cell)
    (x : Cell) (hrow : pyGet g r = some row) (hc : pyGet row c = some x) :
    getCell g r c = .ok x := by
  simp only [getCell, hrow, hc]

theorem getCell_parts (g : List (List Cell)) (r c : Int) (x : Cell)
    (h : getCell g r c = .ok x) :
    ∃ row, pyGet g r = some row ∧ pyGet row c = some x := by
  unfold getCell at h
  split at h
  · exact Except.noConfusion h
  · next row heq =>
    split at h
    · exact Except.noConfusion h
    · next y heq2 =>
      injection h with hxy
      subst hxy
      exact ⟨row, heq, heq2⟩

theorem setCell_of (g g' : List (List Cell)) (r c : Int)
    (row row' : List Cell) (a : Cell) (hrow : pyGet g r = some row)
    (hrow' : pySet row c a = some row') (hg' : pySet g r row' = some g') :
    setCell g r c a = .ok g' := by
  simp only [setCell, hrow, hrow', hg']

theorem setCell_parts (g g' : List (List Cell)) (r c : Int) (a : Cell)
    (h : setCell g r c a = .ok g') :
    ∃ row row', pyGet g r = some row ∧ pySet row c a = some row' ∧
      pySet g r row' = some g' := by
  unfold setCell at h
  split at h
  · exact Except.noConfusion h
  · next row heq =>
    split at h
    · exact Except.noConfusion h
    · next row' heq2 =>
      split at h
      · exact Except.noConfusion h
      · next g'' heq3 =>
        injection h with hgg
        subst hgg
        exact ⟨row, row', heq, heq2, heq3⟩

theorem setCell_get_self (g g' : List (List Cell)) (r c : Int) (a : Cell)
    (h : setCell g r c a = .ok g') : getCell g' r c = .ok a := by
  obtain ⟨row, row', hrow, hrow', hg'⟩ := setCell_parts g g' r c a h
  exact getCell_of g' r c row' a (pySet_pyGet_self g g' r row' hg')
    (pySet_pyGet_self row row' c a hrow')

theorem getCell_row_congr (g1 g2 : List (List Cell)) (r1 r2 c : Int)
    (h : pyGet g1 r1 = pyGet g2 r2) : getCell g1 r1 c = getCell g2 r2 c := by
  simp only [getCell, h]

theorem setCell_wf (g : List (List Cell)) (r c : Int) (a : Cell)
    (hw : gridWF g) (hp : inGrid 10 (r, c)) :
    ∃ g', setCell g r c a = .ok g' ∧ gridWF g' ∧
      ∀ r' c' : Int, inGrid 10 (r', c') →
        getCell g' r' c' = if r' = r ∧ c' = c then .ok a else getCell g r' c' := by
  obtain ⟨hlen, hrows⟩ := hw
  obtain ⟨hr0, hr1, hc0, hc1⟩ := hp
  have hrlt : r.toNat < g.length := by omega
  have hrowget : pyGet g r = some g[r.toNat] := by
    rw [pyGet_nn g r hr0]
    exact List.getElem?_eq_getElem hrlt
  have hrowlen : (g[r.toNat]).length = 10 := hrows _ (List.getElem_mem hrlt)
  have hrow' : pySet g[r.toNat] c a = some ((g[r.toNat]).set c.toNat a) :=
    pySet_nn _ c a hc0 (by rw [hrowlen]; omega)
  have hg' : pySet g r ((g[r.toNat]).set c.toNat a) =
      some (g.set r.toNat ((g[r.toNat]).set c.toNat a)) :=
    pySet_nn g r _ hr0 (by omega)
  have hset : setCell g r c a = .ok (g.set r.toNat ((g[r.toNat]).set c.toNat a)) :=
    setCell_of g _ r c _ _ a hrowget hrow' hg'
  refine ⟨_, hset, ⟨?_, ?_⟩, ?_⟩
  · rw [List.length_set]; exact hlen
  · intro row₂ hmem
    rcases List.mem_or_eq_of_mem_set hmem with hmem' | heq
    · exact hrows row₂ hmem'
    · subst heq; rw [List.length_set]; exact hrowlen
  · intro r' c' hp'
    obtain ⟨hr0', hr1', hc0', hc1'⟩ := hp'
    by_cases hrr : r' = r
    · subst hrr
      by_cases hcc : c' = c
      · subst hcc
        rw [if_pos ⟨rfl, rfl⟩]
        exact setCell_get_self g _ r' c' a hset
      · rw [if_neg (by tauto)]
        have h1 : pyGet (g.set r'.toNat ((g[r'.toNat]).set c.toNat a)) r' =
            some ((g[r'.toNat]).set c.toNat a) :=
          pySet_pyGet_self g _ r' _ hg'
        have h2 : pyGet ((g[r'.toNat]).set c.toNat a) c' = pyGet g[r'.toNat] c' := by
          refine pySet_pyGet_other _ _ c c' a ?_ hrow'
          rw [pyIdx_nn _ _ hc0', pyIdx_nn _ _ hc0]
          exact hcc
        simp only [getCell, h1, hrowget, h2]
    · rw [if_neg (by tauto)]
      have h1 : pyGet (g.set r.toNat ((g[r.toNat]).set c.toNat a)) r' = pyGet g r' := by
        refine pySet_pyGet_other _ _ r r' _ ?_ hg'
        rw [pyIdx_nn _ _ hr0', pyIdx_nn _ _ hr0]
        exact hrr
      exact getCell_row_congr _ _ r' r' c' h1

theorem checkCells_true (g : List (List Cell)) (cells : List (Int × Int))
    (h : checkCells g cells = .ok true) :
    ∀ p ∈ cells, getCell g p.1 p.2 = .ok Cell.empty := by
  induction cells with
  | nil => intro p hp; cases hp
  | cons q rest ih =>
    obtain ⟨r, c⟩ := q
    unfold checkCells at h
    split at h
    · exact absurd h (by simp)
    · next cell heq =>
      split at h
      · exact absurd h (by simp)
      · next hcell =>
        have hcEmpty : cell = Cell.empty := by
          by_contra hno
          exact hcell hno
        subst hcEmpty
        intro p hp
        rcases List.mem_cons.mp hp with hq | hq
        · subst hq; exact heq
        · exact ih h p hq

theorem getCell_ok_row_bound (g : List (List Cell)) (r c : Int) (x : Cell)
    (h0 : 0 ≤ r) (h : getCell g r c = .ok x) : r < g.length := by
  obtain ⟨row, hrow, -⟩ := getCell_parts g r c x h
  exact pyGet_some_bound g r row h0 hrow

theorem getCell_ok_col_bound (g : List (List Cell)) (r c : Int) (x : Cell)
    (hw : gridWF g) (h0 : 0 ≤ c) (h : getCell g r c = .ok x) : c < 10 := by
  obtain ⟨row, hrow, hcell⟩ := getCell_parts g r c x h
  have hmem : row ∈ g := by
    unfold pyGet at hrow
    split at hrow
    · obtain ⟨hlt, rfl⟩ := List.getElem?_eq_some_iff.mp hrow
      exact List.getElem_mem hlt
    · exact Option.noConfusion hrow
  have hlen : row.length = 10 := hw.2 row hmem
  have := pyGet_some_bound row c x h0 hcell
  omega

theorem placeCells_spec (cells : List (Int × Int)) (g : List (List Cell))
    (hw : gridWF g) (hc : ∀ p ∈ cells, inGrid 10 p) :
    ∃ g', placeCells g cells = .ok g' ∧ gridWF g' ∧
      ∀ r c : Int, inGrid 10 (r, c) →
        getCell g' r c =
          if (r, c) ∈ cells then .ok Cell.ship else getCell g r c := by
  induction cells generalizing g with
  | nil =>
    exact ⟨g, rfl, hw, fun r c _ => by simp⟩
  | cons q rest ih =>
    obtain ⟨rq, cq⟩ := q
    obtain ⟨g₁, hset, hw₁, hchar₁⟩ :=
      setCell_wf g rq cq Cell.ship hw (hc _ (by simp))
    obtain ⟨g', hrest, hw', hchar'⟩ :=
      ih g₁ hw₁ (fun p hp => hc p (List.mem_cons_of_mem _ hp))
    refine ⟨g', ?_, hw', ?_⟩
    · unfold placeCells
      rw [hset]
      exact hrest
    · intro r c hin
      rw [hchar' r c hin]
      by_cases hmem : (r, c) ∈ rest
      · rw [if_pos hmem, if_pos (List.mem_cons_of_mem _ hmem)]
      · rw [if_neg hmem, hchar₁ r c hin]
        by_cases hq : r = rq ∧ c = cq
        · rw [if_pos hq, if_pos (by simp [hq.1, hq.2])]
        · rw [if_neg hq, if_neg (by simp; tauto)]

theorem can_place_true_cells (b : Board) (row col : Int) (sz orientation : Nat)
    (hw : boardWF b) (hr : 0 ≤ row) (hc : 0 ≤ col)
    (h : b.can_place_ship row col sz orientation = .ok true) :
    ∀ p ∈ runCells row col sz orientation,
      inGrid 10 p ∧ getCell b.hidden p.1 p.2 = .ok Cell.empty := by
  obtain ⟨hsz, hlen, hrows⟩ := hw
  unfold Board.can_place_ship at h
  by_cases ho : orientation = 0
  · rw [if_pos ho] at h
    split at h
    · exact absurd h (by simp)
    · next hbound =>
      have hcells := checkCells_true _ _ h
      intro p hp
      have hemp := hcells p hp
      refine ⟨?_, hemp⟩
      unfold runCells at hp
      rw [if_pos ho] at hp
      obtain ⟨k, hkmem, hpe⟩ := List.mem_map.mp hp
      have hk := List.mem_range.mp hkmem
      subst hpe
      have hrow10 : row < 10 := by
        have := getCell_ok_row_bound b.hidden row (col + k) Cell.empty hr hemp
        omega
      rw [hsz] at hbound
      exact ⟨hr, by omega, by omega, by omega⟩
  · rw [if_neg ho] at h
    split at h
    · exact absurd h (by simp)
    · next hbound =>
      have hcells := checkCells_true _ _ h
      intro p hp
      have hemp := hcells p hp
      refine ⟨?_, hemp⟩
      unfold runCells at hp
      rw [if_neg ho] at hp
      obtain ⟨k, hkmem, hpe⟩ := List.mem_map.mp hp
      have hk := List.mem_range.mp hkmem
      subst hpe
      have hcol10 : col < 10 :=
        getCell_ok_col_bound b.hidden (row + k) col Cell.empty ⟨hlen, hrows⟩ hc hemp
      rw [hsz] at hbound
      exact ⟨by omega, by omega, hc, by omega⟩

/-- C5 counterexample: on a fresh 10×10 board `can_place_ship` accepts the
start `(-1, 0)` horizontally (Python's negative indexing silently reads row
9), so it returns true although the run's cells do not lie inside the 10×10
grid. -/
theorem c5_counterexample :
    (Board.new 10).can_place_ship (-1) 0 2 0 = .ok true ∧
    ¬ ∀ p ∈ runCells (-1) 0 2 0, inGrid 10 p := by
  constructor
  · decide
  · decide

/-- C5 (amended): for a well-formed board and a start with nonnegative row
and column, `can_place_ship` returns true only when every cell of the run
lies inside the 10×10 grid and is unoccupied; on success `do_place_ship`
commits exactly the cells of the run (everything else unchanged); and when
the check returns false the caller pattern leaves the board untouched. -/
theorem c5_can_place_amended (b : Board) (row col : Int) (sz orientation : Nat)
    (hw : boardWF b) (hr : 0 ≤ row) (hc : 0 ≤ col) :
    (b.can_place_ship row col sz orientation = .ok true →
      ∀ p ∈ runCells row col sz orientation,
        inGrid 10 p ∧ getCell b.hidden p.1 p.2 = .ok Cell.empty) ∧
    (b.can_place_ship row col sz orientation = .ok true →
      ∃ g', placeCells b.hidden (runCells row col sz orientation) = .ok g' ∧
        b.do_place_ship row col sz orientation =
          .ok ((runCells row col sz orientation).toFinset,
            { b with hidden := g' }) ∧
        ∀ r c : Int, inGrid 10 (r, c) →
          getCell g' r c =
            if (r, c) ∈ runCells row col sz orientation then .ok Cell.ship
            else getCell b.hidden r c) ∧
    (b.can_place_ship row col sz orientation = .ok false →
      placeIfPossible b row col sz orientation = .ok (none, b)) := by
  refine ⟨can_place_true_cells b row col sz orientation hw hr hc,
    fun h => ?_, fun h => ?_⟩
  · have hcells := can_place_true_cells b row col sz orientation hw hr hc h
    have hgw : gridWF b.hidden := ⟨hw.2.1, hw.2.2⟩
    obtain ⟨g', hpc, hw', hchar⟩ :=
      placeCells_spec _ b.hidden hgw (fun p hp => (hcells p hp).1)
    refine ⟨g', hpc, ?_, hchar⟩
    simp only [Board.do_place_ship, hpc]
  · simp only [placeIfPossible, h]

/-- Witness for C5 on a fresh board with start (0,0), length 2, horizontal
(where the placement check passes). -/
theorem c5_can_place_amended_witness :
    (boardWF (Board.new 10) ∧ (0 : Int) ≤ 0 ∧
      (Board.new 10).can_place_ship 0 0 2 0 = .ok true) ∧
    (((Board.new 10).can_place_ship 0 0 2 0 = .ok true →
      ∀ p ∈ runCells 0 0 2 0,
        inGrid 10 p ∧ getCell (Board.new 10).hidden p.1 p.2 = .ok Cell.empty) ∧
    ((Board.new 10).can_place_ship 0 0 2 0 = .ok true →
      ∃ g', placeCells (Board.new 10).hidden (runCells 0 0 2 0) = .ok g' ∧
        (Board.new 10).do_place_ship 0 0 2 0 =
          .ok ((runCells 0 0 2 0).toFinset,
            { Board.new 10 with hidden := g' }) ∧
        ∀ r c : Int, inGrid 10 (r, c) →
          getCell g' r c =
            if (r, c) ∈ runCells 0 0 2 0 then .ok Cell.ship
            else getCell (Board.new 10).hidden r c) ∧
    ((Board.new 10).can_place_ship 0 0 2 0 = .ok false →
      placeIfPossible (Board.new 10) 0 0 2 0 = .ok (none, Board.new 10))) :=
  ⟨⟨by decide, by decide, by decide⟩,
   c5_can_place_amended (Board.new 10) 0 0 2 0 (by decide) (by decide) (by decide)⟩

theorem mark_hit_spec (pre : List ShipEntry) (s : ShipEntry)
    (post : List ShipEntry) (p : Int × Int)
    (hp : p ∈ s.positions) (hpre : ∀ t ∈ pre, p ∉ t.positions) :
    mark_hit_and_check_sunk (pre ++ s :: post) p =
      ((if s.positions.erase p = ∅ then some s.name else none),
       pre ++ ⟨s.name, s.positions.erase p⟩ :: post) := by
  induction pre with
  | nil =>
    simp only [List.nil_append]
    unfold mark_hit_and_check_sunk
    rw [if_pos hp]
  | cons t rest ih =>
    have hq : p ∉ t.positions := hpre t (by simp)
    simp only [List.cons_append]
    unfold mark_hit_and_check_sunk
    rw [if_neg hq]
    rw [ih (fun u hu => hpre u (List.mem_cons_of_mem _ hu))]

/-- C4: `fire_at` on an already-resolved cell (HIT or MISS) returns
`already_shot` and leaves the board untouched; a repeated shot at the same
cell is always `already_shot` with no further change, so a cell resolves at
most once; a shot at a SHIP cell yields `hit` and updates the ship list by
`_mark_hit_and_check_sunk`, which removes the cell from the occupying
ship's remaining-position set and reports the ship's name exactly when that
set becomes empty. -/
theorem c4_fire_at_transitions (b : Board) (r c : Int) :
    (∀ cell, getCell b.hidden r c = .ok cell →
      cell = Cell.hit ∨ cell = Cell.miss →
      b.fire_at r c = .ok (FireResult.already_shot, none, b)) ∧
    (∀ res s b', b.fire_at r c = .ok (res, s, b') →
      b'.fire_at r c = .ok (FireResult.already_shot, none, b')) ∧
    (getCell b.hidden r c = .ok Cell.ship →
      ∀ res s b', b.fire_at r c = .ok (res, s, b') →
        res = FireResult.hit ∧
        (s, b'.placed_ships) = mark_hit_and_check_sunk b.placed_ships (r, c)) ∧
    (∀ pre s post, b.placed_ships = pre ++ s :: post →
      (r, c) ∈ s.positions → (∀ t ∈ pre, (r, c) ∉ t.positions) →
      mark_hit_and_check_sunk b.placed_ships (r, c) =
        ((if s.positions.erase (r, c) = ∅ then some s.name else none),
         pre ++ ⟨s.name, s.positions.erase (r, c)⟩ :: post)) := by
  refine ⟨?_, ?_, ?_, ?_⟩
  · intro cell hget hcell
    rcases hcell with h | h <;> subst h <;> simp only [Board.fire_at, hget]
  · intro res s b' hfa
    rcases hmark : mark_hit_and_check_sunk b.placed_ships (r, c) with ⟨sunk, ships'⟩
    cases hget : getCell b.hidden r c with
    | error e =>
      simp only [Board.fire_at, hget] at hfa
      exact Except.noConfusion hfa
    | ok cell =>
      cases cell with
      | ship =>
        cases hset : setCell b.hidden r c Cell.hit with
        | error e =>
          simp only [Board.fire_at, hget, hset] at hfa
          exact Except.noConfusion hfa
        | ok h' =>
          cases hsetd : setCell b.display r c Cell.hit with
          | error e =>
            simp only [Board.fire_at, hget, hset, hsetd] at hfa
            exact Except.noConfusion hfa
          | ok d' =>
            simp only [Board.fire_at, hget, hset, hsetd, hmark] at hfa
            injection hfa with h1
            injection h1 with hres h2
            injection h2 with hs hb'
            subst hb'
            have hnow : getCell h' r c = .ok Cell.hit :=
              setCell_get_self b.hidden h' r c Cell.hit hset
            simp only [Board.fire_at, hnow]
      | empty =>
        cases hset : setCell b.hidden r c Cell.miss with
        | error e =>
          simp only [Board.fire_at, hget, hset] at hfa
          exact Except.noConfusion hfa
        | ok h' =>
          cases hsetd : setCell b.display r c Cell.miss with
          | error e =>
            simp only [Board.fire_at, hget, hset, hsetd] at hfa
            exact Except.noConfusion hfa
          | ok d' =>
            simp only [Board.fire_at, hget, hset, hsetd] at hfa
            injection hfa with h1
            injection h1 with hres h2
            injection h2 with hs hb'
            subst hb'
            have hnow : getCell h' r c = .ok Cell.miss :=
              setCell_get_self b.hidden h' r c Cell.miss hset
            simp only [Board.fire_at, hnow]
      | hit =>
        simp only [Board.fire_at, hget] at hfa
        injection hfa with h1
        injection h1 with hres h2
        injection h2 with hs hb'
        subst hb'
        simp only [Board.fire_at, hget]
      | miss =>
        simp only [Board.fire_at, hget] at hfa
        injection hfa with h1
        injection h1 with hres h2
        injection h2 with hs hb'
        subst hb'
        simp only [Board.fire_at, hget]
  · intro hget res s b' hfa
    rcases hmark : mark_hit_and_check_sunk b.placed_ships (r, c) with ⟨sunk, ships'⟩
    cases hset : setCell b.hidden r c Cell.hit with
    | error e =>
      simp only [Board.fire_at, hget, hset] at hfa
      exact Except.noConfusion hfa
    | ok h' =>
      cases hsetd : setCell b.display r c Cell.hit with
      | error e =>
        simp only [Board.fire_at, hget, hset, hsetd] at hfa
        exact Except.noConfusion hfa
      | ok d' =>
        simp only [Board.fire_at, hget, hset, hsetd, hmark] at hfa
        injection hfa with h1
        injection h1 with hres h2
        injection h2 with hs hb'
        subst hb'
        exact ⟨hres.symm, by rw [← hs]⟩
  · intro pre s post hships hp hpre
    rw [hships]
    exact mark_hit_spec pre s post (r, c) hp hpre

/-- A concrete board with a single two-cell destroyer at A1–A2, used to
witness the `fire_at` theorem. -/
def fireDemoBoard : Board :=
  { size := 10
    hidden := (emptyGrid 10).set 0
      (((List.replicate 10 Cell.empty).set 0 Cell.ship).set 1 Cell.ship)
    display := emptyGrid 10
    placed_ships := [⟨"Destroyer", {(0, 0), (0, 1)}⟩] }

/-- Witness for C4 on `fireDemoBoard` at cell (0,0). -/
theorem c4_fire_at_transitions_witness :
    (getCell fireDemoBoard.hidden 0 0 = .ok Cell.ship ∧
     fireDemoBoard.placed_ships =
       [] ++ (⟨"Destroyer", {(0, 0), (0, 1)}⟩ : ShipEntry) :: [] ∧
     ((0 : Int), (0 : Int)) ∈
       (⟨"Destroyer", {(0, 0), (0, 1)}⟩ : ShipEntry).positions) ∧
    ((∀ cell, getCell fireDemoBoard.hidden 0 0 = .ok cell →
      cell = Cell.hit ∨ cell = Cell.miss →
      fireDemoBoard.fire_at 0 0 = .ok (FireResult.already_shot, none, fireDemoBoard)) ∧
    (∀ res s b', fireDemoBoard.fire_at 0 0 = .ok (res, s, b') →
      b'.fire_at 0 0 = .ok (FireResult.already_shot, none, b')) ∧
    (getCell fireDemoBoard.hidden 0 0 = .ok Cell.ship →
      ∀ res s b', fireDemoBoard.fire_at 0 0 = .ok (res, s, b') →
        res = FireResult.hit ∧
        (s, b'.placed_ships) =
          mark_hit_and_check_sunk fireDemoBoard.placed_ships (0, 0)) ∧
    (∀ pre s post, fireDemoBoard.placed_ships = pre ++ s :: post →
      ((0 : Int), (0 : Int)) ∈ s.positions →
      (∀ t ∈ pre, ((0 : Int), (0 : Int)) ∉ t.positions) →
      mark_hit_and_check_sunk fireDemoBoard.placed_ships (0, 0) =
        ((if s.positions.erase (0, 0) = ∅ then some s.name else none),
         pre ++ ⟨s.name, s.positions.erase (0, 0)⟩ :: post))) :=
  ⟨⟨by decide, by decide, by decide⟩, c4_fire_at_transitions fireDemoBoard 0 0⟩

/-! ## Ship placement (ship_placement.py) -/

/-- battleship.py `SHIPS`: the roster of (name, length). -/
def SHIPS : List (String × Nat) :=
  [("Carrier", 5), ("Battleship", 4), ("Cruiser", 3), ("Submarine", 3), ("Destroyer", 2)]

/-- ASCII-faithful `str.lower()` (per-character lowering). -/
def strLower (s : String) : String := ⟨s.data.map Char.toLower⟩

/-- ASCII-faithful `str.upper()` (per-character uppering). -/
def strUpper (s : String) : String := ⟨s.data.map Char.toUpper⟩

/-- Python whitespace for `str.strip()` / `str.split()`. -/
def isPySpace (c : Char) : Bool :=
  c = ' ' ∨ c = '\t' ∨ c = '\n' ∨ c = '\r' ∨ c = '\x0b' ∨ c = '\x0c'

/-- Python `str.strip()` on a character list. -/
def trimChars (l : List Char) : List Char :=
  ((l.dropWhile isPySpace).reverse.dropWhile isPySpace).reverse

/-- The digits of a decimal literal, or `none` if empty or non-digit. -/
def digitsVal (l : List Char) : Option Nat :=
  if l = [] then none
  else if l.all (fun ch => ch.isDigit) then
    some (l.foldl (fun acc ch => acc * 10 + (ch.toNat - 48)) 0)
  else none

/-- Python `int(s)` on decimal strings: optional surrounding whitespace,
optional sign, digits (underscore separators are not modelled); `none`
models a raised ValueError. -/
def pyInt (s : String) : Option Int :=
  match trimChars s.data with
  | '-' :: rest => (digitsVal rest).map (fun n => -(n : Int))
  | '+' :: rest => (digitsVal rest).map (fun n => (n : Int))
  | t => (digitsVal t).map (fun n => (n : Int))

/-- ship_placement.py `ShipPlacement`: a board plus the set of placed ship
names. -/
structure ShipPlacement where
  board : Board
  placed_ships : Finset String
deriving DecidableEq

/-- `ShipPlacement.__init__`. -/
def ShipPlacement.new : ShipPlacement := ⟨Board.new 10, ∅⟩

/-- `ShipPlacement.get_board`. -/
def ShipPlacement.get_board (sp : ShipPlacement) : Board := sp.board

/-- The case-insensitive roster lookup
(`next((size for name, size in SHIPS if name.lower() == ship_name.lower()), None)`). -/
def rosterSize (ship_name : String) : Option Nat :=
  (SHIPS.find? (fun e => strLower e.1 = strLower ship_name)).map (fun e => e.2)

/-- The body of `ShipPlacement.place_ship` before its catch-all `except`
(an `Except.error` stands for a raised IndexError/ValueError; the error
detail string is not modelled). -/
def place_ship_core (sp : ShipPlacement) (coord orientation ship_name : String) :
    Except Unit (Bool × String × ShipPlacement) :=
  match rosterSize ship_name with
  | none => .ok (false, "Unknown ship: " ++ ship_name, sp)
  | some ship_size =>
    if ship_name ∈ sp.placed_ships then
      .ok (false, ship_name ++ " already placed", sp)
    else
      match coord.data with
      | [] => .error ()
      | ch :: rest =>
        let row : Int := (ch.toUpper.toNat : Int) - 65
        match pyInt (String.mk rest) with
        | none => .error ()
        | some n =>
          let col : Int := n - 1
          let orient : Nat := if strUpper orientation = "H" then 0 else 1
          match sp.board.can_place_ship row col ship_size orient with
          | .error e => .error e
          | .ok false =>
            .ok (false, "Cannot place ship there. Try another position.", sp)
          | .ok true =>
            match sp.board.do_place_ship row col ship_size orient with
            | .error e => .error e
            | .ok (occupied, b') =>
              .ok (true, "Placed " ++ ship_name ++ " at " ++ coord,
                ⟨{ b' with placed_ships := b'.placed_ships ++ [⟨ship_name, occupied⟩] },
                 insert ship_name sp.placed_ships⟩)

/-- ship_placement.py `ShipPlacement.place_ship`: the `try` body with its
catch-all `except` returning `(False, "Invalid placement: …")`. Returns
`(success, message, new state)`. -/
def ShipPlacement.place_ship (sp : ShipPlacement)
    (coord orientation ship_name : String) : Bool × String × ShipPlacement :=
  match place_ship_core sp coord orientation ship_name with
  | .ok r => r
  | .error _ => (false, "Invalid placement: error", sp)

/-- ship_placement.py `ShipPlacement.is_complete`:
`len(self.placed_ships) == len(SHIPS)`. -/
def ShipPlacement.is_complete (sp : ShipPlacement) : Bool :=
  sp.placed_ships.card == SHIPS.length

theorem place_ship_core_false (sp : ShipPlacement)
    (coord orientation ship_name : String) (b : Bool) (m : String)
    (sp' : ShipPlacement)
    (h : place_ship_core sp coord orientation ship_name = .ok (b, m, sp'))
    (hb : b = false) : sp' = sp := by
  subst hb
  unfold place_ship_core at h
  simp only [] at h
  repeat' split at h
  all_goals first
    | exact Except.noConfusion h
    | (injection h with h1; injection h1 with h2 h3; injection h3 with h4 h5
       exact h5.symm)
    | (injection h with h1; injection h1 with h2 h3
       exact absurd h2.symm (by simp))

/-- C10: `place_ship` is total — every exception path is caught and
returned as a `(False, message)` pair — and whenever it reports failure the
placement state (board and placed-ship set) is returned unchanged. -/
theorem c10_place_ship_total (sp : ShipPlacement)
    (coord orientation ship_name : String)
    (h : (sp.place_ship coord orientation ship_name).1 = false) :
    (sp.place_ship coord orientation ship_name).2.2 = sp := by
  unfold ShipPlacement.place_ship at h ⊢
  cases hc : place_ship_core sp coord orientation ship_name with
  | error e => rfl
  | ok r =>
    obtain ⟨b, m, sp'⟩ := r
    rw [hc] at h
    simp only [] at h ⊢
    exact place_ship_core_false sp coord orientation ship_name b m sp' hc h

/-- Witness for C10: placing an unknown ship fails and leaves the fresh
placement unchanged. -/
theorem c10_place_ship_total_witness :
    (ShipPlacement.new.place_ship "A1" "H" "Dinghy").1 = false ∧
    (ShipPlacement.new.place_ship "A1" "H" "Dinghy").2.2 = ShipPlacement.new :=
  ⟨by decide, c10_place_ship_total ShipPlacement.new "A1" "H" "Dinghy" (by decide)⟩

/-- C8 counterexample: the roster lookup is case-insensitive, but the
duplicate check `ship_name in self.placed_ships` compares the raw string,
so "carrier" then "Carrier" both succeed — the Carrier roster ship is
committed to the board twice. -/
theorem c8_counterexample :
    rosterSize "carrier" = some 5 ∧ rosterSize "Carrier" = some 5 ∧
    (ShipPlacement.new.place_ship "A1" "H" "carrier").1 = true ∧
    (((ShipPlacement.new.place_ship "A1" "H" "carrier").2.2).place_ship
      "C1" "H" "Carrier").1 = true :=
  ⟨by decide, by decide, by decide, by decide⟩

/-- C8 (amended): ship names are validated against the roster
case-insensitively; a duplicate under the exact same name string is
rejected with no state change (case variants are not detected as
duplicates); and `is_complete` holds exactly when the set of placed name
strings has five elements. -/
theorem c8_placement_roster (sp : ShipPlacement)
    (coord orientation ship_name : String) :
    (rosterSize ship_name = none →
      sp.place_ship coord orientation ship_name =
        (false, "Unknown ship: " ++ ship_name, sp)) ∧
    (∀ k, rosterSize ship_name = some k → ship_name ∈ sp.placed_ships →
      sp.place_ship coord orientation ship_name =
        (false, ship_name ++ " already placed", sp)) ∧
    (sp.is_complete = true ↔ sp.placed_ships.card = SHIPS.length) := by
  refine ⟨fun h => ?_, fun k hk hmem => ?_, ?_⟩
  · simp only [ShipPlacement.place_ship, place_ship_core, h]
  · simp only [ShipPlacement.place_ship, place_ship_core, hk, if_pos hmem]
  · simp [ShipPlacement.is_complete]

/-- The placement state after a successful "Carrier" placement, used to
witness the C8 theorem. -/
def c8DemoPlacement : ShipPlacement :=
  (ShipPlacement.new.place_ship "A1" "H" "Carrier").2.2

/-- Witness for C8 on a state that already contains "Carrier". -/
theorem c8_placement_roster_witness :
    (rosterSize "Carrier" = some 5 ∧ "Carrier" ∈ c8DemoPlacement.placed_ships) ∧
    ((rosterSize "Carrier" = none →
      c8DemoPlacement.place_ship "C1" "H" "Carrier" =
        (false, "Unknown ship: " ++ "Carrier", c8DemoPlacement)) ∧
    (∀ k, rosterSize "Carrier" = some k → "Carrier" ∈ c8DemoPlacement.placed_ships →
      c8DemoPlacement.place_ship "C1" "H" "Carrier" =
        (false, "Carrier" ++ " already placed", c8DemoPlacement)) ∧
    (c8DemoPlacement.is_complete = true ↔
      c8DemoPlacement.placed_ships.card = SHIPS.length)) :=
  ⟨⟨by decide, by decide⟩, c8_placement_roster c8DemoPlacement "C1" "H" "Carrier"⟩

/-! ## Server connection handler (server.py) -/

def PACKET_TYPE_JOIN : Nat := 0x00
def PACKET_TYPE_FIRE : Nat := 0x01
def PACKET_TYPE_SHOW : Nat := 0x02
def PACKET_TYPE_QUIT : Nat := 0x03
def PACKET_TYPE_ERROR : Nat := 0xFF
def PACKET_TYPE_CHAT : Nat := 0x04
def PACKET_TYPE_PLACE : Nat := 0x05

/-- server.py `INACTIVITY_TIMEOUT` (seconds). -/
def INACTIVITY_TIMEOUT : Nat := 30

/-- server.py `RECONNECT_TIMEOUT` (seconds) — declared as the reconnection
window but never consulted anywhere in the source. -/
def RECONNECT_TIMEOUT : Nat := 60

/-- server.py `GameState` (the two sockets and the lock are connection
plumbing; the spectators list never affects handler state). -/
structure GameState where
  placements : ShipPlacement × ShipPlacement
  current_turn : Nat
  names : List String
  placement_phase : Bool
  placement_complete : Bool × Bool
deriving DecidableEq

/-- `GameState.switch_turn`: `self.current_turn = 1 - self.current_turn`. -/
def GameState.switch_turn (g : GameState) : GameState :=
  { g with current_turn := 1 - g.current_turn }

/-- `GameState.get_opponent_index`. -/
def get_opponent_index (i : Nat) : Nat := 1 - i

/-- `game.placements[i]` for a player index. -/
def GameState.getPlacement (g : GameState) (i : Nat) : ShipPlacement :=
  if i = 0 then g.placements.1 else g.placements.2

/-- Functional update of `game.placements[i]` (in Python the list entry is
mutated in place). -/
def GameState.setPlacement (g : GameState) (i : Nat) (sp : ShipPlacement) :
    GameState :=
  if i = 0 then { g with placements := (sp, g.placements.2) }
  else { g with placements := (g.placements.1, sp) }

/-- Functional update of `game.placement_complete[i]`. -/
def GameState.setComplete (g : GameState) (i : Nat) (v : Bool) : GameState :=
  if i = 0 then { g with placement_complete := (v, g.placement_complete.2) }
  else { g with placement_complete := (g.placement_complete.1, v) }

/-- `GameState.check_placement_complete`: `all(self.placement_complete)`. -/
def GameState.check_placement_complete (g : GameState) : Bool :=
  g.placement_complete.1 && g.placement_complete.2

/-- `game.names[i]` (player names only ever feed message text). -/
def GameState.getName (g : GameState) (i : Nat) : String :=
  g.names.getD i ""

/-- The glyph of a display cell (`'.'`, `'S'`, `'X'`, `'o'`). -/
def cellChar : Cell → Char
  | Cell.empty => '.'
  | Cell.ship => 'S'
  | Cell.hit => 'X'
  | Cell.miss => 'o'

/-- Python `"sep".join(parts)`. -/
def joinSep (sep : String) : List String → String
  | [] => ""
  | [x] => x
  | x :: rest => x ++ sep ++ joinSep sep rest

/-- `f"{i+1:2}"`: a column number right-aligned to width 2. -/
def natPad2 (n : Nat) : String :=
  if n < 10 then " " ++ toString n else toString n

/-- battleship.py `Board.render_display_grid`. -/
def render_display_grid (b : Board) : String :=
  let header := "    " ++
    joinSep "  " ((List.range (b.display.headD []).length).map
      (fun i => natPad2 (i + 1)))
  let rows := (List.range b.display.length).map (fun r =>
    String.mk [Char.ofNat (65 + r)] ++ "   " ++
      joinSep "  " ((b.display.getD r []).map (fun cell => String.mk [cellChar cell])))
  header ++ "\n" ++ joinSep "\n" rows ++ "\n"

/-- Python `payload.split()`: split on whitespace runs, dropping empties. -/
def splitWs : List Char → List (List Char)
  | [] => []
  | c :: rest =>
    if isPySpace c then splitWs rest
    else (c :: rest.takeWhile (fun d => ¬ isPySpace d)) ::
      splitWs (rest.dropWhile (fun d => ¬ isPySpace d))
  termination_by l => l.length
  decreasing_by
  · simp only [List.length_cons]
    omega
  · simp only [List.length_cons]
    exact Nat.lt_succ_of_le (List.dropWhile_suffix _).sublist.length_le

/-- Python `payload.split()` on strings. -/
def pySplit (s : String) : List String := (splitWs s.data).map String.mk

/-- Where a handler response goes: the requesting socket, the opponent's
socket, or `broadcast_to_all`. -/
inductive Dest
  | toSelf
  | toOpp
  | broadcast
deriving DecidableEq

/-- One `sendall(build_packet(...))` performed by the handler. -/
structure Send where
  dest : Dest
  ptype : Nat
  payload : String
deriving DecidableEq

/-- One iteration's input to the handler's read loop: a parsed frame, a
`socket.timeout`, or any other exception out of `parse_packet`
(short/malformed frame or checksum mismatch). -/
inductive RecvEvent
  | packet (seq ptype : Nat) (payload : String)
  | timeout
  | protoErr
deriving DecidableEq

/-- How one loop iteration ends: keep looping, `break` out (quit / game
over), or `break` after inserting the player into `reconnect_pool`. -/
inductive StepOutcome
  | continue_
  | break_
  | disconnect
deriving DecidableEq

/-- `result.upper()` for a fire outcome. -/
def resStr : FireResult → String
  | FireResult.hit => "HIT"
  | FireResult.miss => "MISS"
  | FireResult.already_shot => "ALREADY_SHOT"

/-- `f"{result.upper()} â€” Sunk {sunk}" if sunk else result.upper()`
(the separator reproduces the source file's literal bytes). -/
def fireMsg (result : FireResult) (sunk : Option String) : String :=
  match sunk with
  | some nm => resStr result ++ " â€” Sunk " ++ nm
  | none => resStr result

/-- The FIRE try-body up to and including `fire_at`: parse the coordinate
from the payload and fire at the opponent's board (an `Except.error` is any
raised exception, answered with "Invalid FIRE format."). -/
def fireCompute (g : GameState) (idx : Nat) (payload : String) :
    Except Unit (FireResult × Option String × GameState) :=
  match payload.data with
  | [] => .error ()
  | ch :: rest =>
    match pyInt (String.mk rest) with
    | none => .error ()
    | some n =>
      match ((g.getPlacement (get_opponent_index idx)).get_board).fire_at
          ((ch.toUpper.toNat : Int) - 65) (n - 1) with
      | .error e => .error e
      | .ok (result, sunk, b') =>
        .ok (result, sunk,
          g.setPlacement (get_opponent_index idx)
            { g.getPlacement (get_opponent_index idx) with board := b' })

/-- The PLACE branch after the spectator and phase guards (its try-body;
the only raisable step, `payload.split()` arity, is answered with the
ValueError's message). Always continues the loop. -/
def placeCommand (idx : Nat) (g : GameState) (payload : String) :
    GameState × List Send :=
  match pySplit payload with
  | [coord, orientation, ship_name] =>
    match (g.getPlacement idx).place_ship coord orientation ship_name with
    | (success, message, sp') =>
      let g₁ := g.setPlacement idx sp'
      if success then
        if sp'.is_complete then
          let g₂ := g₁.setComplete idx true
          if g₂.check_placement_complete then
            ({ g₂ with placement_phase := false },
              [⟨.toSelf, PACKET_TYPE_CHAT, message⟩,
               ⟨.toSelf, PACKET_TYPE_CHAT, "All ships placed! Waiting for opponent..."⟩,
               ⟨.broadcast, PACKET_TYPE_CHAT, "Game started! Fire away."⟩])
          else
            (g₂, [⟨.toSelf, PACKET_TYPE_CHAT, message⟩,
              ⟨.toSelf, PACKET_TYPE_CHAT, "All ships placed! Waiting for opponent..."⟩])
        else (g₁, [⟨.toSelf, PACKET_TYPE_CHAT, message⟩])
      else (g₁, [⟨.toSelf, PACKET_TYPE_ERROR, message⟩])
  | _ =>
    (g, [⟨.toSelf, PACKET_TYPE_ERROR,
      "Invalid placement: Invalid format. Use: place <coord> <H/V> <ship_name>"⟩])

/-- The FIRE branch after the spectator and phase guards. -/
def fireResolve (idx : Nat) (g : GameState) (payload name : String) :
    StepOutcome × GameState × List Send :=
  match fireCompute g idx payload with
  | .error _ => (.continue_, g, [⟨.toSelf, PACKET_TYPE_ERROR, "Invalid FIRE format."⟩])
  | .ok (result, sunk, g') =>
    let msg := fireMsg result sunk
    let sends := [⟨Dest.toSelf, PACKET_TYPE_FIRE, "RESULT " ++ msg⟩,
      ⟨Dest.toOpp, PACKET_TYPE_FIRE, name ++ " fired at " ++ payload ++ ": " ++ msg⟩,
      ⟨Dest.broadcast, PACKET_TYPE_CHAT, name ++ " fired at " ++ payload ++ ": " ++ msg⟩]
    if result == FireResult.hit &&
        ((g'.getPlacement (get_opponent_index idx)).get_board).all_ships_sunk then
      (.break_, g', sends ++ [⟨Dest.toSelf, PACKET_TYPE_CHAT, "You win!"⟩,
        ⟨Dest.toOpp, PACKET_TYPE_CHAT, "You lose!"⟩])
    else (.continue_, g'.switch_turn, sends)

/-- One iteration of server.py `handle_player`'s read loop for socket
`idx` of game `g` (indices ≥ 2 are spectators), on receive event `ev`:
the dispatch `if/elif` chain over the packet type, the `socket.timeout`
handler, and the catch-all handler that registers the seat in
`reconnect_pool` and exits. -/
def serverStep (idx : Nat) (g : GameState) (ev : RecvEvent) :
    StepOutcome × GameState × List Send :=
  match ev with
  | .timeout =>
    if idx ≥ 2 then (.continue_, g, [])
    else (.continue_, g.switch_turn,
      [⟨.toSelf, PACKET_TYPE_ERROR, "Timeout. You forfeit your turn."⟩,
       ⟨.toOpp, PACKET_TYPE_CHAT, g.getName idx ++ " timed out."⟩])
  | .protoErr =>
    if idx ≥ 2 then (.break_, g, []) else (.disconnect, g, [])
  | .packet _seq t payload =>
    if t = PACKET_TYPE_QUIT then
      (.break_, g,
        ⟨.toSelf, PACKET_TYPE_QUIT, "You quit."⟩ ::
          (if idx ≥ 2 then []
           else [⟨.toOpp, PACKET_TYPE_CHAT, g.getName idx ++ " quit. You win!"⟩]))
    else if t = PACKET_TYPE_SHOW then
      if idx ≥ 2 then (.continue_, g, [])
      else
        let view := render_display_grid (g.getPlacement idx).get_board
        if view.data.length > 255 then
          (.continue_, g, (send_board_in_chunks view.data).map
            (fun p => ⟨.toSelf, PACKET_TYPE_SHOW, String.mk p⟩))
        else (.continue_, g, [⟨.toSelf, PACKET_TYPE_SHOW, view⟩])
    else if t = PACKET_TYPE_PLACE then
      if idx ≥ 2 then
        (.continue_, g, [⟨.toSelf, PACKET_TYPE_ERROR, "Spectators cannot place ships."⟩])
      else if g.placement_phase = false then
        (.continue_, g, [⟨.toSelf, PACKET_TYPE_ERROR, "Placement phase is over."⟩])
      else
        match placeCommand idx g payload with
        | (g', sends) => (.continue_, g', sends)
    else if t = PACKET_TYPE_CHAT then
      (.continue_, g,
        [⟨.broadcast, PACKET_TYPE_CHAT, "[" ++ g.getName idx ++ "]: " ++ payload⟩])
    else if t = PACKET_TYPE_FIRE then
      if idx ≥ 2 then
        (.continue_, g, [⟨.toSelf, PACKET_TYPE_ERROR, "Spectators cannot fire."⟩])
      else if g.placement_phase then
        (.continue_, g,
          [⟨.toSelf, PACKET_TYPE_ERROR, "Game hasn't started yet. Place your ships first."⟩])
      else fireResolve idx g payload (g.getName idx)
    else (.continue_, g, [⟨.toSelf, PACKET_TYPE_ERROR, "Unknown command."⟩])

/-! ## Lobby reconnection handling (server.py `lobby` / `reconnect_pool`) -/

/-- One `reconnect_pool` entry: `(game.placements, opp_idx, game)` — the
owning game object is the session the placements belong to, represented
here by the placements and the stored opponent index. -/
structure ReconnectEntry where
  placements : ShipPlacement × ShipPlacement
  opp_idx : Nat
deriving DecidableEq

/-- `name in reconnect_pool` / `reconnect_pool[name]` (a dict keyed by
display name). -/
def reconnect_lookup (pool : List (String × ReconnectEntry)) (name : String) :
    Option ReconnectEntry :=
  (pool.find? (fun e => e.1 = name)).map (fun e => e.2)

/-- What the lobby does with a freshly named connection. -/
inductive LobbyAction
  | rejoin (seat : Nat) (e : ReconnectEntry) (pool' : List (String × ReconnectEntry))
  | spectate
  | enqueue
deriving DecidableEq

/-- The classification at the top of server.py `lobby`'s accept loop: a
name present in `reconnect_pool` is rehomed into the old game at seat
`opponent_idx ^ 1` and the entry deleted; otherwise the connection becomes
a spectator if a game is active, else it is queued. No clock is consulted
anywhere on this path. -/
def lobbyClassify (pool : List (String × ReconnectEntry)) (hasActiveGame : Bool)
    (name : String) : LobbyAction :=
  match reconnect_lookup pool name with
  | some e => .rejoin (e.opp_idx ^^^ 1) e (pool.filter (fun x => x.1 ≠ name))
  | none => if hasActiveGame then .spectate else .enqueue

/-- A two-player game in the IN_PROGRESS phase with fresh boards, used as a
concrete state for the handler theorems. -/
def demoGame : GameState :=
  { placements := (ShipPlacement.new, ShipPlacement.new)
    current_turn := 0
    names := ["Alice", "Bob"]
    placement_phase := false
    placement_complete := (true, true) }

/-- C1 (code-bug evidence): in an IN_PROGRESS game with `current_turn = 0`,
a FIRE from player index 1 is not rejected — server.py's FIRE branch never
consults `current_turn` — so the shot resolves against player 0's board
(a MISS is recorded at A1), result frames (not an error) are sent, and
`current_turn` flips to 1. The spec (and debug_server.py) prescribe a
"Not your turn." rejection with no state change. -/
theorem c1_fire_without_turn_check :
    (serverStep 1 demoGame (RecvEvent.packet 0 PACKET_TYPE_FIRE "A1")).1 =
      StepOutcome.continue_ ∧
    (serverStep 1 demoGame (RecvEvent.packet 0 PACKET_TYPE_FIRE "A1")).2.1.current_turn = 1 ∧
    (serverStep 1 demoGame (RecvEvent.packet 0 PACKET_TYPE_FIRE "A1")).2.2 =
      [⟨Dest.toSelf, PACKET_TYPE_FIRE, "RESULT MISS"⟩,
       ⟨Dest.toOpp, PACKET_TYPE_FIRE, "Bob fired at A1: MISS"⟩,
       ⟨Dest.broadcast, PACKET_TYPE_CHAT, "Bob fired at A1: MISS"⟩] ∧
    getCell (serverStep 1 demoGame
        (RecvEvent.packet 0 PACKET_TYPE_FIRE "A1")).2.1.placements.1.board.display
      0 0 = .ok Cell.miss :=
  ⟨by decide, by decide, by decide, by decide⟩

/-- C3 counterexample: a protocol error (checksum mismatch included) while
handling player 0 does not let the read loop continue — the handler takes
the catch-all path, which registers the seat in `reconnect_pool` and
breaks, closing the connection. -/
theorem c3_counterexample :
    (serverStep 0 demoGame RecvEvent.protoErr).1 = StepOutcome.disconnect ∧
    StepOutcome.disconnect ≠ StepOutcome.continue_ ∧
    (serverStep 0 demoGame RecvEvent.protoErr).2.2 = [] :=
  ⟨by decide, by decide, by decide⟩

/-- C3 (amended): for a player seat, any `parse_packet` failure — a
checksum mismatch raises `ValueError("Checksum mismatch")` — is fatal to
the handler: the seat is snapshotted into `reconnect_pool` and the loop
exits with the game state untouched and nothing sent. (Only the *client*'s
`parse_packet` drops bad frames non-fatally, returning `None`.) -/
theorem c3_parse_error_disconnects (idx : Nat) (g : GameState) (h : idx ≤ 1) :
    serverStep idx g RecvEvent.protoErr = (StepOutcome.disconnect, g, []) := by
  have hns : ¬ (idx ≥ 2) := by omega
  simp [serverStep, hns]

/-- Witness for C3 at player 0 of the demo game. -/
theorem c3_parse_error_disconnects_witness :
    (0 : Nat) ≤ 1 ∧
    serverStep 0 demoGame RecvEvent.protoErr =
      (StepOutcome.disconnect, demoGame, []) :=
  ⟨by decide, c3_parse_error_disconnects 0 demoGame (by decide)⟩

/-- C7 (code-bug evidence): the lobby's reconnect lookup never consults a
clock — `RECONNECT_TIMEOUT` is declared but unused — so an entry found in
the pool is honoured no matter how much time has elapsed since the
disconnect: the connection is rehomed to seat `opp_idx ^ 1` with the saved
placements and the entry is deleted. -/
theorem c7_reconnect_never_expires (elapsed : Nat)
    (pool : List (String × ReconnectEntry)) (name : String) (e : ReconnectEntry)
    (hfound : reconnect_lookup pool name = some e)
    (hlate : RECONNECT_TIMEOUT < elapsed) :
    lobbyClassify pool false name =
      .rejoin (e.opp_idx ^^^ 1) e (pool.filter (fun x => x.1 ≠ name)) := by
  simp [lobbyClassify, hfound]

/-- Witness for C7: an entry for "Rania" is still honoured 61 seconds
after the disconnect (one second past `RECONNECT_TIMEOUT`). -/
theorem c7_reconnect_never_expires_witness :
    reconnect_lookup [("Rania", ⟨(ShipPlacement.new, ShipPlacement.new), 0⟩)] "Rania" =
      some ⟨(ShipPlacement.new, ShipPlacement.new), 0⟩ ∧
    RECONNECT_TIMEOUT < 61 ∧
    lobbyClassify [("Rania", ⟨(ShipPlacement.new, ShipPlacement.new), 0⟩)] false "Rania" =
      .rejoin 1 ⟨(ShipPlacement.new, ShipPlacement.new), 0⟩ [] :=
  ⟨by decide, by decide,
   (c7_reconnect_never_expires 61
      [("Rania", ⟨(ShipPlacement.new, ShipPlacement.new), 0⟩)] "Rania"
      ⟨(ShipPlacement.new, ShipPlacement.new), 0⟩
      (by decide) (by decide)).trans (by decide)⟩

theorem switch_turn_ne (g : GameState) :
    g.switch_turn.current_turn ≠ g.current_turn := by
  simp only [GameState.switch_turn]
  omega

theorem setPlacement_turn (g : GameState) (i : Nat) (sp : ShipPlacement) :
    (g.setPlacement i sp).current_turn = g.current_turn := by
  unfold GameState.setPlacement
  split <;> rfl

theorem setComplete_turn (g : GameState) (i : Nat) (v : Bool) :
    (g.setComplete i v).current_turn = g.current_turn := by
  unfold GameState.setComplete
  split <;> rfl

theorem fireCompute_turn (g : GameState) (idx : Nat) (payload : String)
    (r : FireResult) (s : Option String) (g' : GameState)
    (h : fireCompute g idx payload = .ok (r, s, g')) :
    g'.current_turn = g.current_turn := by
  unfold fireCompute at h
  repeat' split at h
  all_goals first
    | exact Except.noConfusion h
    | (injection h with h1
       injection h1 with h2 h3
       injection h3 with h4 h5
       rw [← h5]
       exact setPlacement_turn ..)

theorem placeCommand_turn (idx : Nat) (g : GameState) (payload : String) :
    (placeCommand idx g payload).1.current_turn = g.current_turn := by
  unfold placeCommand
  simp only []
  repeat' split
  all_goals try simp only []
  all_goals first
    | rfl
    | rw [setComplete_turn, setPlacement_turn]
    | rw [setPlacement_turn]

theorem serverStep_packet_turn_eq (idx : Nat) (g : GameState)
    (seq t : Nat) (payload : String) (hf : t ≠ PACKET_TYPE_FIRE) :
    (serverStep idx g (.packet seq t payload)).2.1.current_turn = g.current_turn := by
  simp only [serverStep]
  by_cases h1 : t = PACKET_TYPE_QUIT
  · rw [if_pos h1]
  · rw [if_neg h1]
    by_cases h2 : t = PACKET_TYPE_SHOW
    · rw [if_pos h2]
      by_cases hs : idx ≥ 2
      · rw [if_pos hs]
      · rw [if_neg hs]
        try simp only []
        split <;> rfl
    · rw [if_neg h2]
      by_cases h3 : t = PACKET_TYPE_PLACE
      · rw [if_pos h3]
        by_cases hs : idx ≥ 2
        · rw [if_pos hs]
        · rw [if_neg hs]
          by_cases hph : g.placement_phase = false
          · rw [if_pos hph]
          · rw [if_neg hph]
            cases hm : placeCommand idx g payload with
            | mk g' sends =>
              simp only [hm]
              have hpc := placeCommand_turn idx g payload
              rw [hm] at hpc
              exact hpc
      · rw [if_neg h3]
        by_cases h4 : t = PACKET_TYPE_CHAT
        · rw [if_pos h4]
        · rw [if_neg h4, if_neg hf]

/-- C6 counterexample: player 1 does not hold the turn (`current_turn = 0`),
yet its inactivity timeout switches `current_turn` to 1 — the timeout
handler calls `switch_turn` without checking whose turn it is. -/
theorem c6_counterexample :
    demoGame.current_turn = 0 ∧
    (serverStep 1 demoGame RecvEvent.timeout).2.1.current_turn = 1 :=
  ⟨by decide, by decide⟩

/-- C6 (amended): `current_turn` changes exactly when (a) any player's
(not only the current player's) inactivity deadline expires, or (b) a FIRE
from either player (no turn check) outside the placement phase parses and
resolves against the opponent's board — including an ALREADY_SHOT result —
without being a game-ending hit. It never changes on CHAT, SHOW, PLACE,
QUIT, unknown or malformed commands, on placement-phase FIREs, on protocol
errors, or for spectator sockets. -/
theorem c6_turn_alternation (idx : Nat) (g : GameState) (ev : RecvEvent) :
    (serverStep idx g ev).2.1.current_turn ≠ g.current_turn ↔
      (idx < 2 ∧
        (ev = RecvEvent.timeout ∨
          ∃ seq payload result sunk g',
            ev = RecvEvent.packet seq PACKET_TYPE_FIRE payload ∧
            g.placement_phase = false ∧
            fireCompute g idx payload = .ok (result, sunk, g') ∧
            ¬(result = FireResult.hit ∧
              ((g'.getPlacement (get_opponent_index idx)).get_board).all_ships_sunk = true))) := by
  cases ev with
  | timeout =>
    by_cases hs : idx ≥ 2
    · have hstate : (serverStep idx g .timeout).2.1 = g := by
        simp [serverStep, hs]
      rw [hstate]
      constructor
      · intro hne; exact absurd rfl hne
      · rintro ⟨hlt, -⟩; omega
    · have hstate : (serverStep idx g .timeout).2.1 = g.switch_turn := by
        simp [serverStep, hs]
      rw [hstate]
      constructor
      · intro _; exact ⟨by omega, Or.inl rfl⟩
      · intro _; exact switch_turn_ne g
  | protoErr =>
    have hstate : (serverStep idx g .protoErr).2.1 = g := by
      unfold serverStep
      by_cases hs : idx ≥ 2 <;> simp [hs]
    rw [hstate]
    constructor
    · intro hne; exact absurd rfl hne
    · rintro ⟨-, h | ⟨seq', payload', r, sk, g', heq, -⟩⟩
      · exact RecvEvent.noConfusion h
      · exact RecvEvent.noConfusion heq
  | packet seq t payload =>
    by_cases hf : t = PACKET_TYPE_FIRE
    · subst hf
      by_cases hs : idx ≥ 2
      · have hstate : (serverStep idx g (.packet seq PACKET_TYPE_FIRE payload)).2.1 = g := by
          simp [serverStep, PACKET_TYPE_FIRE, PACKET_TYPE_QUIT, PACKET_TYPE_SHOW,
            PACKET_TYPE_PLACE, PACKET_TYPE_CHAT, hs]
        rw [hstate]
        constructor
        · intro hne; exact absurd rfl hne
        · rintro ⟨hlt, -⟩; omega
      · by_cases hp : g.placement_phase
        · have hstate : (serverStep idx g (.packet seq PACKET_TYPE_FIRE payload)).2.1 = g := by
            simp [serverStep, PACKET_TYPE_FIRE, PACKET_TYPE_QUIT, PACKET_TYPE_SHOW,
              PACKET_TYPE_PLACE, PACKET_TYPE_CHAT, hs, hp]
          rw [hstate]
          constructor
          · intro hne; exact absurd rfl hne
          · rintro ⟨-, h | ⟨seq', payload', r, sk, g', heq, hpf, -⟩⟩
            · exact RecvEvent.noConfusion h
            · rw [hpf] at hp; exact Bool.noConfusion hp
        · have hpf : g.placement_phase = false := by simpa using hp
          have hstep : serverStep idx g (.packet seq PACKET_TYPE_FIRE payload) =
              fireResolve idx g payload (g.getName idx) := by
            simp [serverStep, PACKET_TYPE_FIRE, PACKET_TYPE_QUIT, PACKET_TYPE_SHOW,
              PACKET_TYPE_PLACE, PACKET_TYPE_CHAT, hs, hp]
          rw [hstep]
          cases hfc : fireCompute g idx payload with
          | error e =>
            have hstate : (fireResolve idx g payload (g.getName idx)).2.1 = g := by
              simp [fireResolve, hfc]
            rw [hstate]
            constructor
            · intro hne; exact absurd rfl hne
            · rintro ⟨-, h | ⟨seq', payload', r, sk, g', heq, -, hfc', -⟩⟩
              · exact RecvEvent.noConfusion h
              · injection heq with e1 e2 e3
                rw [← e3, hfc] at hfc'
                exact Except.noConfusion hfc'
          | ok triple =>
            obtain ⟨r, sk, g'⟩ := triple
            have hturn := fireCompute_turn g idx payload r sk g' hfc
            by_cases hwin : (r == FireResult.hit &&
                ((g'.getPlacement (get_opponent_index idx)).get_board).all_ships_sunk) = true
            · have hstate : (fireResolve idx g payload (g.getName idx)).2.1 = g' := by
                simp only [fireResolve, hfc]
                rw [if_pos hwin]
              rw [hstate, hturn]
              constructor
              · intro hne; exact absurd rfl hne
              · rintro ⟨-, h | ⟨seq', payload', r', sk', g'', heq, -, hfc', hnw⟩⟩
                · exact RecvEvent.noConfusion h
                · injection heq with e1 e2 e3
                  rw [← e3, hfc] at hfc'
                  injection hfc' with hx
                  injection hx with hr hx2
                  injection hx2 with hsk hg
                  obtain ⟨hbeq, hsunk⟩ := Bool.and_eq_true_iff.mp hwin
                  refine absurd (⟨?_, ?_⟩ :
                    r' = FireResult.hit ∧
                    ((g''.getPlacement (get_opponent_index idx)).get_board).all_ships_sunk = true) hnw
                  · rw [← hr]; exact (beq_iff_eq ..).mp hbeq
                  · rw [← hg]; exact hsunk
            · have hstate : (fireResolve idx g payload (g.getName idx)).2.1 = g'.switch_turn := by
                simp only [fireResolve, hfc]
                rw [if_neg hwin]
              rw [hstate]
              constructor
              · intro _
                refine ⟨by omega, Or.inr ⟨seq, payload, r, sk, g', rfl, hpf, hfc, ?_⟩⟩
                rintro ⟨hr, hsunk⟩
                exact hwin (by rw [hr]; simp [hsunk])
              · intro _
                rw [show g.current_turn = g'.current_turn from hturn.symm]
                exact switch_turn_ne g'
    · have hstate := serverStep_packet_turn_eq idx g seq t payload hf
      rw [hstate]
      constructor
      · intro hne; exact absurd rfl hne
      · rintro ⟨-, h | ⟨seq', payload', r, sk, g', heq, -⟩⟩
        · exact RecvEvent.noConfusion h
        · injection heq with e1 e2 e3
          exact absurd e2 hf

end BattleshipsGame
